/-
Verification of the mbed LittleFileSystem2 wrapper (LittleFileSystem2.cpp)
against its natural-language specification.

The wrapper translates between the mbed FileSystem API and the littlefs v2
core.  Pure conversion helpers, the geometry derivation performed by
mount/format, the block-device callback address arithmetic, the
lock/unlock discipline, and the error-path state effects are embedded
shallowly below, following the C source line by line.  The littlefs core
itself (lfs2.c) is not part of the wrapper source; where a claim depends
on it (the crash-consistent commit protocol) a model is built from the
specification's description of that protocol.
-/
import Mathlib

set_option autoImplicit false

namespace LittleFS2

/-! ## Error-code constants

`LFS2_ERR_*` values are those of the littlefs v2 header `lfs2.h`
(part of this repository, outside the wrapper source file); the `E*`
values are the newlib `errno.h` constants used by the mbed toolchain. -/

def LFS2_ERR_OK : Int := 0
def LFS2_ERR_IO : Int := -5
def LFS2_ERR_CORRUPT : Int := -84
def LFS2_ERR_NOENT : Int := -2
def LFS2_ERR_EXIST : Int := -17
def LFS2_ERR_NOTDIR : Int := -20
def LFS2_ERR_ISDIR : Int := -21
def LFS2_ERR_NOTEMPTY : Int := -39
def LFS2_ERR_BADF : Int := -9
def LFS2_ERR_FBIG : Int := -27
def LFS2_ERR_INVAL : Int := -22
def LFS2_ERR_NOSPC : Int := -28
def LFS2_ERR_NOMEM : Int := -12

def EIO : Int := 5
def ENOENT : Int := 2
def EEXIST : Int := 17
def ENODEV : Int := 19
def ENOTDIR : Int := 20
def EISDIR : Int := 21
def EINVAL : Int := 22
def ENOSPC : Int := 28
def ENOMEM : Int := 12
def EILSEQ : Int := 138

/-- `lfs2_toerror` (LittleFileSystem2.cpp lines 34-60): maps a littlefs
status to a POSIX-style negative errno, every other value unchanged. -/
def lfs2_toerror (err : Int) : Int :=
  if err = LFS2_ERR_OK then 0
  else if err = LFS2_ERR_IO then - EIO
  else if err = LFS2_ERR_NOENT then -ENOENT
  else if err = LFS2_ERR_EXIST then -EEXIST
  else if err = LFS2_ERR_NOTDIR then -ENOTDIR
  else if err = LFS2_ERR_ISDIR then -EISDIR
  else if err = LFS2_ERR_INVAL then -EINVAL
  else if err = LFS2_ERR_NOSPC then -ENOSPC
  else if err = LFS2_ERR_NOMEM then -ENOMEM
  else if err = LFS2_ERR_CORRUPT then -EILSEQ
  else err

/-- littlefs file-type tags, from `lfs2.h`. -/
def LFS2_TYPE_REG : Int := 0x001
def LFS2_TYPE_DIR : Int := 0x002

def S_IRWXU : Int := 0o700
def S_IRWXG : Int := 0o070
def S_IRWXO : Int := 0o007
def S_IFDIR : Int := 0o040000
def S_IFREG : Int := 0o100000

/-- `lfs2_tomode` (lines 88-99): littlefs type tag to POSIX mode bits. -/
def lfs2_tomode (ty : Int) : Int :=
  let mode := S_IRWXU + S_IRWXG + S_IRWXO
  if ty = LFS2_TYPE_DIR then mode + S_IFDIR
  else if ty = LFS2_TYPE_REG then mode + S_IFREG
  else 0

end LittleFS2

namespace LittleFS2

/-- C3: the error translation maps each littlefs status to its
POSIX-style negative errno (OK to 0, IO to - EIO, NOENT to -ENOENT,
EXIST to -EEXIST, NOTDIR to -ENOTDIR, ISDIR to -EISDIR, INVAL to
-EINVAL, NOSPC to -ENOSPC, NOMEM to -ENOMEM, CORRUPT to -EILSEQ),
and every other status is returned unchanged. -/
theorem toerror_spec :
    lfs2_toerror LFS2_ERR_OK = 0 ∧
    lfs2_toerror LFS2_ERR_IO = - EIO ∧
    lfs2_toerror LFS2_ERR_NOENT = -ENOENT ∧
    lfs2_toerror LFS2_ERR_EXIST = -EEXIST ∧
    lfs2_toerror LFS2_ERR_NOTDIR = -ENOTDIR ∧
    lfs2_toerror LFS2_ERR_ISDIR = -EISDIR ∧
    lfs2_toerror LFS2_ERR_INVAL = -EINVAL ∧
    lfs2_toerror LFS2_ERR_NOSPC = -ENOSPC ∧
    lfs2_toerror LFS2_ERR_NOMEM = -ENOMEM ∧
    lfs2_toerror LFS2_ERR_CORRUPT = -EILSEQ ∧
    ∀ e : Int,
      e ∉ [LFS2_ERR_OK, LFS2_ERR_IO, LFS2_ERR_NOENT, LFS2_ERR_EXIST,
           LFS2_ERR_NOTDIR, LFS2_ERR_ISDIR, LFS2_ERR_INVAL, LFS2_ERR_NOSPC,
           LFS2_ERR_NOMEM, LFS2_ERR_CORRUPT] →
      lfs2_toerror e = e := by
  refine ⟨rfl, by decide, by decide, by decide, by decide, by decide,
    by decide, by decide, by decide, by decide, ?_⟩
  intro e he
  simp only [List.mem_cons, List.not_mem_nil, or_false, not_or] at he
  obtain ⟨h0, h1, h2, h3, h4, h5, h6, h7, h8, h9⟩ := he
  simp only [lfs2_toerror, if_neg h0, if_neg h1, if_neg h2, if_neg h3,
    if_neg h4, if_neg h5, if_neg h6, if_neg h7, if_neg h8, if_neg h9]

/-- Witness for `toerror_spec`: the status `-39` (LFS2_ERR_NOTEMPTY) is not
in the translated list and is returned unchanged, and the status `42` (a
positive byte count) likewise. -/
theorem toerror_spec_witness :
    lfs2_toerror (-39) = -39 ∧ lfs2_toerror 42 = 42 :=
  ⟨(toerror_spec.2.2.2.2.2.2.2.2.2.2) (-39) (by decide),
   (toerror_spec.2.2.2.2.2.2.2.2.2.2) 42 (by decide)⟩

end LittleFS2

namespace LittleFS2

/-! ## Block device geometry and configuration derivation -/

/-- Geometry reported by the mbed `BlockDevice` the wrapper consumes
(`get_read_size`, `get_program_size`, `get_erase_size`, `size`). -/
structure BlockDevice where
  read_size : Nat
  program_size : Nat
  erase_size : Nat
  size : Nat
deriving DecidableEq

/-- The numeric fields of `struct lfs2_config` that the wrapper assigns
in `mount` (lines 184-190) and `format` (lines 250-256). -/
structure Lfs2Config where
  read_size : Nat
  prog_size : Nat
  block_size : Nat
  block_count : Nat
  block_cycles : Nat
  cache_size : Nat
  lookahead_size : Nat
deriving DecidableEq

/-- Effective configuration derived by `mount` (lines 184-190), mirroring
the field assignments in source order: each assignment reads the fields
already updated before it. -/
def mountConfig (cfg : Lfs2Config) (bd : BlockDevice) : Lfs2Config :=
  let c1 := { cfg with read_size := bd.read_size }
  let c2 := { c1 with prog_size := bd.program_size }
  let c3 := { c2 with block_size := max c2.block_size bd.erase_size }
  let c4 := { c3 with block_count := bd.size / c3.block_size }
  let c5 := { c4 with cache_size := max c4.cache_size c4.prog_size }
  { c5 with lookahead_size := min c5.lookahead_size (8 * ((c5.block_count + 63) / 64)) }

/-- Effective configuration derived by the static `format` (lines 244-256)
from its explicit arguments, starting from a zeroed config. -/
def formatConfig (block_size block_cycles cache_size lookahead_size : Nat)
    (bd : BlockDevice) : Lfs2Config :=
  let c0 : Lfs2Config := ⟨0, 0, 0, 0, 0, 0, 0⟩
  let c1 := { c0 with read_size := bd.read_size }
  let c2 := { c1 with prog_size := bd.program_size }
  let c3 := { c2 with block_size := max block_size bd.erase_size }
  let c4 := { c3 with block_count := bd.size / c3.block_size }
  let c5 := { c4 with block_cycles := block_cycles }
  let c6 := { c5 with cache_size := max cache_size c5.prog_size }
  { c6 with lookahead_size := min lookahead_size (8 * ((c6.block_count + 63) / 64)) }

end LittleFS2

namespace LittleFS2

/-- C4: mount derives the effective geometry as the configured value
clamped against device limits: block_size = max(configured, erase_size);
cache_size = max(configured, program_size); lookahead_size =
min(configured, 8 * ((block_count + 63) / 64)); block_count = device
size / effective block_size; and format derives the same values from
its arguments. -/
theorem mount_geometry_derivation (cfg : Lfs2Config) (bd : BlockDevice) :
    (mountConfig cfg bd).block_size = max cfg.block_size bd.erase_size ∧
    (mountConfig cfg bd).cache_size = max cfg.cache_size bd.program_size ∧
    (mountConfig cfg bd).lookahead_size =
      min cfg.lookahead_size (8 * (((mountConfig cfg bd).block_count + 63) / 64)) ∧
    (mountConfig cfg bd).block_count = bd.size / max cfg.block_size bd.erase_size ∧
    formatConfig cfg.block_size cfg.block_cycles cfg.cache_size cfg.lookahead_size bd
      = mountConfig cfg bd := by
  refine ⟨rfl, rfl, rfl, rfl, ?_⟩
  simp [mountConfig, formatConfig]

/-- C5 counterexample: the claim that the effective block size is always an
exact multiple of the device erase size fails: with configured block_size
700 and erase size 512, mount keeps block_size 700, which 512 does not
divide. -/
theorem block_size_alignment_cex :
    ¬ (∀ (cfg : Lfs2Config) (bd : BlockDevice),
        bd.erase_size ∣ (mountConfig cfg bd).block_size) := by
  intro h
  have := h ⟨0, 0, 700, 0, 0, 0, 0⟩ ⟨1, 1, 512, 65536⟩
  simp [mountConfig] at this
  omega

/-- C5 amended: the effective block size computed by mount (and, by C4,
equally by format) is an exact multiple of the device erase size whenever
the configured block_size is itself a multiple of the erase size or does
not exceed it; in general it is only clamped to at least the erase size. -/
theorem block_size_alignment_amended (cfg : Lfs2Config) (bd : BlockDevice)
    (h : bd.erase_size ∣ cfg.block_size ∨ cfg.block_size ≤ bd.erase_size) :
    bd.erase_size ∣ (mountConfig cfg bd).block_size := by
  have hbs : (mountConfig cfg bd).block_size = max cfg.block_size bd.erase_size := rfl
  rw [hbs]
  rcases h with hdvd | hle
  · rcases le_total cfg.block_size bd.erase_size with h1 | h1
    · rw [max_eq_right h1]
    · rw [max_eq_left h1]
      exact hdvd
  · rw [max_eq_right hle]

/-- Witness for `block_size_alignment_amended`: with configured block_size
1024 and erase size 512 the effective block size is 1024, a multiple of
512. -/
theorem block_size_alignment_amended_witness :
    (512 : Nat) ∣ (mountConfig ⟨0, 0, 1024, 0, 0, 0, 0⟩ ⟨1, 1, 512, 65536⟩).block_size :=
  block_size_alignment_amended ⟨0, 0, 1024, 0, 0, 0, 0⟩ ⟨1, 1, 512, 65536⟩
    (Or.inl (by decide))

end LittleFS2

namespace LittleFS2

/-! ## Filesystem driver state model

The wrapper instance state consists of the `_bd` device pointer and the
stored `_config`.  Calls into the device lifecycle and the littlefs core
are recorded as an explicit trace; the results of those calls are
supplied as environment parameters, since the core is external to the
wrapper source. -/

/-- A call out of the wrapper: device lifecycle (`bd->init`, `bd->deinit`)
or littlefs core entry points. -/
inductive ExtCall where
  | bdInit (d : BlockDevice)
  | bdDeinit (d : BlockDevice)
  | coreMount (d : BlockDevice)
  | coreUnmount
  | coreFormat (d : BlockDevice) (cfg : Lfs2Config)
deriving DecidableEq

/-- The wrapper instance state: `_bd` (null = unmounted) and `_config`. -/
structure FsState where
  bd : Option BlockDevice
  config : Lfs2Config
deriving DecidableEq

/-- Results of the external calls made by `mount`. -/
structure MountEnv where
  initResult : Int
  lfs2MountResult : Int
deriving DecidableEq

/-- Results of the external calls made by `unmount`. -/
structure UnmountEnv where
  lfs2UnmountResult : Int
  deinitResult : Int
deriving DecidableEq

/-- Results of the external calls made by the static `format`. -/
structure FormatEnv where
  initResult : Int
  lfs2FormatResult : Int
  deinitResult : Int
deriving DecidableEq

/-- `mount` (lines 166-203): sets `_bd`, calls `bd->init()` (failure:
return the device error verbatim with `_bd = NULL`), derives the
effective configuration, calls the core `lfs2_mount` (failure: return
the mapped error with `_bd = NULL`), else succeeds.  Returns
(return value, new state, external-call trace). -/
def mount (st : FsState) (dev : BlockDevice) (env : MountEnv) :
    Int × FsState × List ExtCall :=
  if env.initResult ≠ 0 then
    (env.initResult, { st with bd := none }, [ExtCall.bdInit dev])
  else
    let cfg := mountConfig st.config dev
    if env.lfs2MountResult ≠ 0 then
      (lfs2_toerror env.lfs2MountResult, { bd := none, config := cfg },
       [ExtCall.bdInit dev, ExtCall.coreMount dev])
    else
      (0, { bd := some dev, config := cfg },
       [ExtCall.bdInit dev, ExtCall.coreMount dev])

/-- `unmount` (lines 205-227): a no-op when unmounted; otherwise calls the
core `lfs2_unmount` and `bd->deinit()`, reporting the first failure
(core error mapped, device error verbatim), and clears `_bd`. -/
def unmount (st : FsState) (env : UnmountEnv) :
    Int × FsState × List ExtCall :=
  match st.bd with
  | none => (0, st, [])
  | some d =>
      let res1 := if env.lfs2UnmountResult ≠ 0
                  then lfs2_toerror env.lfs2UnmountResult else 0
      let res2 := if env.deinitResult ≠ 0 ∧ res1 = 0
                  then env.deinitResult else res1
      (res2, { st with bd := none }, [ExtCall.coreUnmount, ExtCall.bdDeinit d])

/-- The static `format` (lines 229-272): `bd->init()`, derive the
configuration from the arguments, core `lfs2_format`, `bd->deinit()`;
the first failure is returned (device errors verbatim, core error
mapped). -/
def format (dev : BlockDevice) (block_size block_cycles cache_size lookahead_size : Nat)
    (env : FormatEnv) : Int × List ExtCall :=
  let cfg := formatConfig block_size block_cycles cache_size lookahead_size dev
  if env.initResult ≠ 0 then
    (env.initResult, [ExtCall.bdInit dev])
  else if env.lfs2FormatResult ≠ 0 then
    (lfs2_toerror env.lfs2FormatResult, [ExtCall.bdInit dev, ExtCall.coreFormat dev cfg])
  else if env.deinitResult ≠ 0 then
    (env.deinitResult,
     [ExtCall.bdInit dev, ExtCall.coreFormat dev cfg, ExtCall.bdDeinit dev])
  else
    (0, [ExtCall.bdInit dev, ExtCall.coreFormat dev cfg, ExtCall.bdDeinit dev])

/-- Results of the external calls made by `reformat` through its nested
`unmount`, `format` and `mount`. -/
structure ReformatEnv where
  unmountEnv : UnmountEnv
  formatEnv : FormatEnv
  mountEnv : MountEnv
deriving DecidableEq

/-- `reformat` (lines 274-318): when mounted, a null argument is replaced
by the mounted device and the instance is unmounted first; a still-null
device yields `-ENODEV`; otherwise the device is formatted with the
stored configuration parameters and mounted again. -/
def reformat (st : FsState) (bdArg : Option BlockDevice) (env : ReformatEnv) :
    Int × FsState × List ExtCall :=
  let bd : Option BlockDevice :=
    match st.bd, bdArg with
    | some d0, none => some d0
    | _, b => b
  match st.bd with
  | some _ =>
      let r := unmount st env.unmountEnv
      if r.1 ≠ 0 then (r.1, r.2.1, r.2.2)
      else
        match bd with
        | none => (-ENODEV, r.2.1, r.2.2)
        | some d =>
            let f := format d r.2.1.config.block_size r.2.1.config.block_cycles
                       r.2.1.config.cache_size r.2.1.config.lookahead_size env.formatEnv
            if f.1 ≠ 0 then (f.1, r.2.1, r.2.2 ++ f.2)
            else
              let m := mount r.2.1 d env.mountEnv
              (m.1, m.2.1, r.2.2 ++ f.2 ++ m.2.2)
  | none =>
      match bd with
      | none => (-ENODEV, st, [])
      | some d =>
          let f := format d st.config.block_size st.config.block_cycles
                     st.config.cache_size st.config.lookahead_size env.formatEnv
          if f.1 ≠ 0 then (f.1, st, f.2)
          else
            let m := mount st d env.mountEnv
            (m.1, m.2.1, f.2 ++ m.2.2)

end LittleFS2

namespace LittleFS2

/-- C6 counterexample: "a failed mount changes no filesystem state" fails:
with stored block_size 512, a device with erase size 1024, a successful
init and a corrupt core mount, mount fails (returns -EILSEQ = -138) yet the
stored configuration now holds the derived block_size 1024, so the state
differs from the original. -/
theorem mount_failure_state_cex :
    (mount ⟨none, ⟨0, 0, 512, 0, 0, 0, 0⟩⟩ ⟨1, 1, 1024, 65536⟩ ⟨0, -84⟩).1 ≠ 0 ∧
    (mount ⟨none, ⟨0, 0, 512, 0, 0, 0, 0⟩⟩ ⟨1, 1, 1024, 65536⟩ ⟨0, -84⟩).2.1
      ≠ ⟨none, ⟨0, 0, 512, 0, 0, 0, 0⟩⟩ := by
  constructor <;> decide

/-- C6 amended: if `bd->init()` fails, mount returns the device error
verbatim, leaves the device pointer null and the stored configuration
unchanged; if the core `lfs2_mount` fails, mount returns the mapped error
and leaves the device pointer null, but the stored configuration holds the
derived effective geometry (so the instance state is not fully
unchanged). -/
theorem mount_failure_paths (st : FsState) (dev : BlockDevice) (env : MountEnv) :
    (env.initResult ≠ 0 →
      mount st dev env = (env.initResult, { st with bd := none },
        [ExtCall.bdInit dev])) ∧
    (env.initResult = 0 → env.lfs2MountResult ≠ 0 →
      mount st dev env = (lfs2_toerror env.lfs2MountResult,
        { bd := none, config := mountConfig st.config dev },
        [ExtCall.bdInit dev, ExtCall.coreMount dev])) := by
  constructor
  · intro h
    simp [mount, h]
  · intro h0 h1
    simp [mount, h0, h1]

/-- Witness for `mount_failure_paths`: concrete init failure (-5) and
concrete core-mount failure (-84) instances. -/
theorem mount_failure_paths_witness :
    mount ⟨none, ⟨0, 0, 512, 0, 0, 0, 0⟩⟩ ⟨1, 1, 1024, 65536⟩ ⟨-5, 0⟩
      = (-5, ⟨none, ⟨0, 0, 512, 0, 0, 0, 0⟩⟩, [ExtCall.bdInit ⟨1, 1, 1024, 65536⟩]) ∧
    mount ⟨none, ⟨0, 0, 512, 0, 0, 0, 0⟩⟩ ⟨1, 1, 1024, 65536⟩ ⟨0, -84⟩
      = (-138, ⟨none, mountConfig ⟨0, 0, 512, 0, 0, 0, 0⟩ ⟨1, 1, 1024, 65536⟩⟩,
         [ExtCall.bdInit ⟨1, 1, 1024, 65536⟩, ExtCall.coreMount ⟨1, 1, 1024, 65536⟩]) := by
  constructor
  · exact (mount_failure_paths ⟨none, ⟨0, 0, 512, 0, 0, 0, 0⟩⟩ ⟨1, 1, 1024, 65536⟩
      ⟨-5, 0⟩).1 (by decide)
  · have := (mount_failure_paths ⟨none, ⟨0, 0, 512, 0, 0, 0, 0⟩⟩ ⟨1, 1, 1024, 65536⟩
      ⟨0, -84⟩).2 rfl (by decide)
    rw [this]
    decide

end LittleFS2

namespace LittleFS2

/-- C10: reformat called with a null device argument: when no filesystem
is mounted it returns -ENODEV with an empty external-call trace (no
device operation); when mounted it behaves exactly as if called with the
currently mounted device. -/
theorem reformat_null_device (st : FsState) (env : ReformatEnv) :
    (st.bd = none → reformat st none env = (-ENODEV, st, [])) ∧
    (∀ d, st.bd = some d → reformat st none env = reformat st (some d) env) := by
  constructor
  · intro h
    simp [reformat, h]
  · intro d h
    simp [reformat, h]

/-- Witness for `reformat_null_device`: an unmounted instance returns
-ENODEV (= -19) and makes no call; a mounted instance with a null argument
behaves as if passed its mounted device. -/
theorem reformat_null_device_witness :
    reformat ⟨none, ⟨0, 0, 512, 0, 0, 0, 0⟩⟩ none ⟨⟨0, 0⟩, ⟨0, 0, 0⟩, ⟨0, 0⟩⟩
      = (-19, ⟨none, ⟨0, 0, 512, 0, 0, 0, 0⟩⟩, []) ∧
    reformat ⟨some ⟨1, 1, 512, 65536⟩, ⟨0, 0, 512, 0, 0, 0, 0⟩⟩ none
        ⟨⟨0, 0⟩, ⟨0, 0, 0⟩, ⟨0, 0⟩⟩
      = reformat ⟨some ⟨1, 1, 512, 65536⟩, ⟨0, 0, 512, 0, 0, 0, 0⟩⟩
          (some ⟨1, 1, 512, 65536⟩) ⟨⟨0, 0⟩, ⟨0, 0, 0⟩, ⟨0, 0⟩⟩ :=
  ⟨(reformat_null_device ⟨none, ⟨0, 0, 512, 0, 0, 0, 0⟩⟩
      ⟨⟨0, 0⟩, ⟨0, 0, 0⟩, ⟨0, 0⟩⟩).1 rfl,
   (reformat_null_device ⟨some ⟨1, 1, 512, 65536⟩, ⟨0, 0, 512, 0, 0, 0, 0⟩⟩
      ⟨⟨0, 0⟩, ⟨0, 0, 0⟩, ⟨0, 0⟩⟩).2 ⟨1, 1, 512, 65536⟩ rfl⟩

end LittleFS2

namespace LittleFS2

/-! ## Block-device callback model -/

/-- A request issued to the block device data interface. -/
inductive BDRequest where
  | read (addr size : Nat)
  | program (addr size : Nat)
  | erase (addr size : Nat)
  | sync
deriving DecidableEq

/-- `lfs2_bd_read` (lines 115-120): issues
`bd->read(buffer, (bd_addr_t)block * block_size + off, size)` -- the
address is computed in 64-bit `bd_addr_t` arithmetic -- and returns the
device status unchanged.  The device behaviour is the function `dev`. -/
def lfs2_bd_read (c : Lfs2Config) (dev : BDRequest → Int)
    (block off size : Nat) : BDRequest × Int :=
  (BDRequest.read ((block * c.block_size + off) % 2 ^ 64) size,
   dev (BDRequest.read ((block * c.block_size + off) % 2 ^ 64) size))

/-- `lfs2_bd_prog` (lines 122-127): `bd->program` at the same address
arithmetic, status returned unchanged. -/
def lfs2_bd_prog (c : Lfs2Config) (dev : BDRequest → Int)
    (block off size : Nat) : BDRequest × Int :=
  (BDRequest.program ((block * c.block_size + off) % 2 ^ 64) size,
   dev (BDRequest.program ((block * c.block_size + off) % 2 ^ 64) size))

/-- `lfs2_bd_erase` (lines 129-133): `bd->erase(block * block_size,
block_size)`, status returned unchanged. -/
def lfs2_bd_erase (c : Lfs2Config) (dev : BDRequest → Int)
    (block : Nat) : BDRequest × Int :=
  (BDRequest.erase ((block * c.block_size) % 2 ^ 64) c.block_size,
   dev (BDRequest.erase ((block * c.block_size) % 2 ^ 64) c.block_size))

/-- `lfs2_bd_sync` (lines 135-139): `bd->sync()`, status returned
unchanged. -/
def lfs2_bd_sync (dev : BDRequest → Int) : BDRequest × Int :=
  (BDRequest.sync, dev BDRequest.sync)

/-- C7: for every block index, offset and size (within their 32-bit
types), the read and program callbacks issue the device operation at
byte address block * block_size + off with the given size, the erase
callback erases at block * block_size with length block_size, and every
callback returns the device's signed status unchanged. -/
theorem bd_callbacks_spec (c : Lfs2Config) (dev : BDRequest → Int)
    (block off size : Nat)
    (hb : block < 2 ^ 32) (ho : off < 2 ^ 32) (hs : c.block_size < 2 ^ 32) :
    lfs2_bd_read c dev block off size
      = (BDRequest.read (block * c.block_size + off) size,
         dev (BDRequest.read (block * c.block_size + off) size)) ∧
    lfs2_bd_prog c dev block off size
      = (BDRequest.program (block * c.block_size + off) size,
         dev (BDRequest.program (block * c.block_size + off) size)) ∧
    lfs2_bd_erase c dev block
      = (BDRequest.erase (block * c.block_size) c.block_size,
         dev (BDRequest.erase (block * c.block_size) c.block_size)) ∧
    lfs2_bd_sync dev = (BDRequest.sync, dev BDRequest.sync) := by
  have hlt : block * c.block_size + off < 2 ^ 64 := by
    have h1 : block ≤ 2 ^ 32 - 1 := by omega
    have h2 : c.block_size ≤ 2 ^ 32 - 1 := by omega
    have h3 := Nat.mul_le_mul h1 h2
    omega
  have hmod : (block * c.block_size + off) % 2 ^ 64 = block * c.block_size + off :=
    Nat.mod_eq_of_lt hlt
  have hmod2 : (block * c.block_size) % 2 ^ 64 = block * c.block_size :=
    Nat.mod_eq_of_lt (by omega)
  refine ⟨?_, ?_, ?_, rfl⟩
  · unfold lfs2_bd_read
    rw [hmod]
  · unfold lfs2_bd_prog
    rw [hmod]
  · unfold lfs2_bd_erase
    rw [hmod2]

/-- Witness for `bd_callbacks_spec`: block 3, offset 17, size 32 on a
512-byte-block configuration with a device that reports status -5: the
read goes to address 1553 and the erase to address 1536 with length 512,
both returning -5. -/
theorem bd_callbacks_spec_witness :
    lfs2_bd_read ⟨1, 1, 512, 0, 0, 0, 0⟩ (fun _ => -5) 3 17 32
      = (BDRequest.read 1553 32, -5) ∧
    lfs2_bd_erase ⟨1, 1, 512, 0, 0, 0, 0⟩ (fun _ => -5) 3
      = (BDRequest.erase 1536 512, -5) := by
  have h := bd_callbacks_spec ⟨1, 1, 512, 0, 0, 0, 0⟩ (fun _ => -5) 3 17 32
    (by decide) (by decide) (by decide)
  exact ⟨h.1.trans (by decide), h.2.2.1.trans (by decide)⟩

end LittleFS2

namespace LittleFS2

/-! ## stat and the open-handle discipline -/

/-- The fields of `struct lfs2_info` that `stat` reads. -/
structure Lfs2Info where
  type : Int
  size : Nat
deriving DecidableEq

/-- The caller's `struct stat`: the two fields `stat` assigns plus one
field standing for every field the wrapper never touches. -/
structure StatBuf where
  st_size : Nat
  st_mode : Int
  st_rest : Int
deriving DecidableEq

/-- `stat` (lines 350-361): the core lookup `lfs2_stat` produced `(err,
info)`; the wrapper then assigns `st->st_size = info.size` and
`st->st_mode = lfs2_tomode(info.type)` unconditionally -- after the
unlock, on the error path as well -- and returns the mapped error. -/
def stat (err : Int) (info : Lfs2Info) (st : StatBuf) : Int × StatBuf :=
  (lfs2_toerror err,
   { st with st_size := info.size, st_mode := lfs2_tomode info.type })

/-- C8 counterexample: a failed stat does not leave the caller's struct
unchanged: with a NoEntry lookup failure whose scratch `info` holds size
7 and type 0, stat returns -ENOENT but overwrites st_size (0 becomes 7)
and st_mode, so the output struct differs from its initial value. -/
theorem stat_frame_cex :
    (stat (-2) ⟨0, 7⟩ ⟨0, 0, 5⟩).1 = -ENOENT ∧
    (stat (-2) ⟨0, 7⟩ ⟨0, 0, 5⟩).2 ≠ ⟨0, 0, 5⟩ := by
  constructor <;> decide

/-- C8 amended: stat returns the mapped error code and always -- on
success and failure alike -- overwrites st_size and st_mode from the
(on failure, indeterminate) lookup scratch `info`, while every other
field of the struct is left unchanged; in particular on a failed lookup
the struct is modified whenever the scratch size differs from the stored
one. -/
theorem stat_behaviour (err : Int) (info : Lfs2Info) (st : StatBuf) :
    (stat err info st).1 = lfs2_toerror err ∧
    (stat err info st).2.st_rest = st.st_rest ∧
    (stat err info st).2.st_size = info.size ∧
    (stat err info st).2.st_mode = lfs2_tomode info.type ∧
    (info.size ≠ st.st_size → (stat err info st).2 ≠ st) := by
  refine ⟨rfl, rfl, rfl, rfl, ?_⟩
  intro hne hEq
  exact hne (congrArg StatBuf.st_size hEq)

/-- Witness for `stat_behaviour`: the NoEntry failure instance with
scratch size 7 against a stored size 0. -/
theorem stat_behaviour_witness :
    (stat (-2) ⟨0, 7⟩ ⟨0, 0, 5⟩).1 = lfs2_toerror (-2) ∧
    (stat (-2) ⟨0, 7⟩ ⟨0, 0, 5⟩).2 ≠ ⟨0, 0, 5⟩ :=
  ⟨(stat_behaviour (-2) ⟨0, 7⟩ ⟨0, 0, 5⟩).1,
   (stat_behaviour (-2) ⟨0, 7⟩ ⟨0, 0, 5⟩).2.2.2.2 (by decide)⟩

/-- `file_open` (lines 387-401): a fresh `lfs2_file_t` (`newH`) is
allocated before the lock; the core open returns `err`; on success the
handle is stored through the caller's output pointer, otherwise it is
deleted and the output pointer keeps its prior contents `out0`.
Returns (return value, output pointer contents, fresh handle deleted). -/
def file_open (err : Int) (newH : Nat) (out0 : Option Nat) :
    Int × Option Nat × Bool :=
  if err = 0 then (lfs2_toerror err, some newH, false)
  else (lfs2_toerror err, out0, true)

/-- `dir_open` (lines 494-508): identical handle discipline to
`file_open` with a fresh `lfs2_dir_t`. -/
def dir_open (err : Int) (newH : Nat) (out0 : Option Nat) :
    Int × Option Nat × Bool :=
  if err = 0 then (lfs2_toerror err, some newH, false)
  else (lfs2_toerror err, out0, true)

/-- C9: file_open stores the fresh handle through the caller's output
pointer only when the core open succeeds; on any error the fresh handle
is freed and the output pointer is left unchanged; dir_open behaves the
same. -/
theorem open_handle_discipline (err : Int) (newH : Nat) (out0 : Option Nat) :
    (err = 0 →
      file_open err newH out0 = (0, some newH, false) ∧
      dir_open err newH out0 = (0, some newH, false)) ∧
    (err ≠ 0 →
      file_open err newH out0 = (lfs2_toerror err, out0, true) ∧
      dir_open err newH out0 = (lfs2_toerror err, out0, true)) := by
  constructor
  · intro h
    subst h
    exact ⟨rfl, rfl⟩
  · intro h
    simp [file_open, dir_open, h]

/-- Witness for `open_handle_discipline`: success stores handle 42; a
NoEntry failure frees it and keeps the prior null output pointer. -/
theorem open_handle_discipline_witness :
    file_open 0 42 none = (0, some 42, false) ∧
    file_open (-2) 42 none = (-2, none, true) :=
  ⟨((open_handle_discipline 0 42 none).1 rfl).1,
   by
     have h := ((open_handle_discipline (-2) 42 none).2 (by decide)).1
     exact h.trans (by decide)⟩

end LittleFS2

namespace LittleFS2

/-! ## Mutex discipline

Each public operation's `_mutex` activity is embedded as the list of
lock/unlock events it performs, with one trace per combination of branch
outcomes; every `return` statement ends a trace.  `reformat` calls
`unmount` and `mount` while holding the lock (the mbed `PlatformMutex`
is recursive), so its traces contain the callees' events nested. -/

/-- A mutex event on the per-instance lock `_mutex`. -/
inductive MEvent where
  | lock
  | unlock
deriving DecidableEq

/-- `balancedFrom d evs`: scanning `evs` starting with `d` locks held,
every unlock matches an earlier lock and the held count is zero at the
end of the trace. -/
def balancedFrom : Nat → List MEvent → Bool
  | d, [] => d == 0
  | d, MEvent.lock :: r => balancedFrom (d + 1) r
  | d, MEvent.unlock :: r => d != 0 && balancedFrom (d - 1) r

/-- `mount` (lines 166-203): lock at entry; unlock before the init-failure
return, the core-failure return, and the success return. -/
def mountEvents (initErr coreErr : Bool) : List MEvent :=
  MEvent.lock ::
    (if initErr then [MEvent.unlock]
     else if coreErr then [MEvent.unlock]
     else [MEvent.unlock])

/-- `unmount` (lines 205-227): lock at entry, single unlock before the one
return; the mounted/unmounted branch and the error results do not change
the mutex activity. -/
def unmountEvents : List MEvent :=
  [MEvent.lock, MEvent.unlock]

/-- The static `format` (lines 229-272) takes no instance lock. -/
def formatEvents : List MEvent := []

/-- Tail of `reformat` from the format call on: format (no mutex events),
early unlock-return on format failure, else the nested `mount` events
followed by the unlock before the mount-failure or success return. -/
def reformatTail (formatErr mountInitErr mountCoreErr : Bool) : List MEvent :=
  formatEvents ++
    (if formatErr then [MEvent.unlock]
     else mountEvents mountInitErr mountCoreErr ++ [MEvent.unlock])

/-- `reformat` (lines 274-318): lock at entry; when mounted, nested
`unmount` events and an unlock-return on unmount failure; when unmounted
with a null device argument, unlock before the -ENODEV return; otherwise
the format/mount tail. -/
def reformatEvents (mounted argNull unmountErr formatErr mountInitErr mountCoreErr : Bool) :
    List MEvent :=
  MEvent.lock ::
    (if mounted then
      unmountEvents ++
        (if unmountErr then [MEvent.unlock]
         else reformatTail formatErr mountInitErr mountCoreErr)
     else
      if argNull then [MEvent.unlock]
      else reformatTail formatErr mountInitErr mountCoreErr)

/-- `remove` (lines 320-328): lock, core call, unlock, return. -/
def removeEvents : List MEvent := [MEvent.lock, MEvent.unlock]

/-- `rename` (lines 330-338): lock, core call, unlock, return. -/
def renameEvents : List MEvent := [MEvent.lock, MEvent.unlock]

/-- `mkdir` (lines 340-348): lock, core call, unlock, return. -/
def mkdirEvents : List MEvent := [MEvent.lock, MEvent.unlock]

/-- `stat` (lines 350-361): lock, core call, unlock, struct assignment,
return. -/
def statEvents : List MEvent := [MEvent.lock, MEvent.unlock]

/-- `statvfs` (lines 363-384): lock, core call, unlock, then both the
negative-size return and the success return occur after the unlock. -/
def statvfsEvents : List MEvent := [MEvent.lock, MEvent.unlock]

/-- `file_open` (lines 387-401): allocation, lock, core call, unlock,
store-or-free, return. -/
def fileOpenEvents : List MEvent := [MEvent.lock, MEvent.unlock]

/-- `file_close` (lines 403-413). -/
def fileCloseEvents : List MEvent := [MEvent.lock, MEvent.unlock]

/-- `file_read` (lines 415-424). -/
def fileReadEvents : List MEvent := [MEvent.lock, MEvent.unlock]

/-- `file_write` (lines 426-435). -/
def fileWriteEvents : List MEvent := [MEvent.lock, MEvent.unlock]

/-- `file_sync` (lines 437-446). -/
def fileSyncEvents : List MEvent := [MEvent.lock, MEvent.unlock]

/-- `file_seek` (lines 448-457). -/
def fileSeekEvents : List MEvent := [MEvent.lock, MEvent.unlock]

/-- `file_tell` (lines 459-468). -/
def fileTellEvents : List MEvent := [MEvent.lock, MEvent.unlock]

/-- `file_size` (lines 470-479). -/
def fileSizeEvents : List MEvent := [MEvent.lock, MEvent.unlock]

/-- `file_truncate` (lines 481-490). -/
def fileTruncateEvents : List MEvent := [MEvent.lock, MEvent.unlock]

/-- `dir_open` (lines 494-508). -/
def dirOpenEvents : List MEvent := [MEvent.lock, MEvent.unlock]

/-- `dir_close` (lines 510-520). -/
def dirCloseEvents : List MEvent := [MEvent.lock, MEvent.unlock]

/-- `dir_read` (lines 522-536): the entry assignment after the unlock does
not touch the mutex. -/
def dirReadEvents : List MEvent := [MEvent.lock, MEvent.unlock]

/-- `dir_seek` (lines 538-546). -/
def dirSeekEvents : List MEvent := [MEvent.lock, MEvent.unlock]

/-- `dir_tell` (lines 548-557). -/
def dirTellEvents : List MEvent := [MEvent.lock, MEvent.unlock]

/-- `dir_rewind` (lines 559-567). -/
def dirRewindEvents : List MEvent := [MEvent.lock, MEvent.unlock]

end LittleFS2

namespace LittleFS2

/-- C2: every public filesystem, file and directory operation acquires the
per-instance mutex as its first mutex action and, on every branch --
every error return included -- the trace of mutex events is balanced and
ends with no lock held. -/
theorem mutex_discipline :
    ∀ initErr coreErr mounted argNull unmountErr formatErr mountInitErr mountCoreErr : Bool,
      ((mountEvents initErr coreErr).head? = some MEvent.lock ∧
        balancedFrom 0 (mountEvents initErr coreErr) = true) ∧
      (unmountEvents.head? = some MEvent.lock ∧
        balancedFrom 0 unmountEvents = true) ∧
      ((reformatEvents mounted argNull unmountErr formatErr mountInitErr
          mountCoreErr).head? = some MEvent.lock ∧
        balancedFrom 0 (reformatEvents mounted argNull unmountErr formatErr
          mountInitErr mountCoreErr) = true) ∧
      (removeEvents.head? = some MEvent.lock ∧ balancedFrom 0 removeEvents = true) ∧
      (renameEvents.head? = some MEvent.lock ∧ balancedFrom 0 renameEvents = true) ∧
      (mkdirEvents.head? = some MEvent.lock ∧ balancedFrom 0 mkdirEvents = true) ∧
      (statEvents.head? = some MEvent.lock ∧ balancedFrom 0 statEvents = true) ∧
      (statvfsEvents.head? = some MEvent.lock ∧ balancedFrom 0 statvfsEvents = true) ∧
      (fileOpenEvents.head? = some MEvent.lock ∧ balancedFrom 0 fileOpenEvents = true) ∧
      (fileCloseEvents.head? = some MEvent.lock ∧ balancedFrom 0 fileCloseEvents = true) ∧
      (fileReadEvents.head? = some MEvent.lock ∧ balancedFrom 0 fileReadEvents = true) ∧
      (fileWriteEvents.head? = some MEvent.lock ∧ balancedFrom 0 fileWriteEvents = true) ∧
      (fileSyncEvents.head? = some MEvent.lock ∧ balancedFrom 0 fileSyncEvents = true) ∧
      (fileSeekEvents.head? = some MEvent.lock ∧ balancedFrom 0 fileSeekEvents = true) ∧
      (fileTellEvents.head? = some MEvent.lock ∧ balancedFrom 0 fileTellEvents = true) ∧
      (fileSizeEvents.head? = some MEvent.lock ∧ balancedFrom 0 fileSizeEvents = true) ∧
      (fileTruncateEvents.head? = some MEvent.lock ∧
        balancedFrom 0 fileTruncateEvents = true) ∧
      (dirOpenEvents.head? = some MEvent.lock ∧ balancedFrom 0 dirOpenEvents = true) ∧
      (dirCloseEvents.head? = some MEvent.lock ∧ balancedFrom 0 dirCloseEvents = true) ∧
      (dirReadEvents.head? = some MEvent.lock ∧ balancedFrom 0 dirReadEvents = true) ∧
      (dirSeekEvents.head? = some MEvent.lock ∧ balancedFrom 0 dirSeekEvents = true) ∧
      (dirTellEvents.head? = some MEvent.lock ∧ balancedFrom 0 dirTellEvents = true) ∧
      (dirRewindEvents.head? = some MEvent.lock ∧
        balancedFrom 0 dirRewindEvents = true) := by
  intro initErr coreErr mounted argNull unmountErr formatErr mountInitErr mountCoreErr
  cases initErr <;> cases coreErr <;> cases mounted <;> cases argNull <;>
    cases unmountErr <;> cases formatErr <;> cases mountInitErr <;>
    cases mountCoreErr <;> decide

end LittleFS2

namespace LittleFS2

/-! ## Crash-consistent metadata commit model

The littlefs core (`lfs2.c`) is not part of the wrapper source file, so
the commit protocol the spec describes is modelled here from the
specification: a per-directory metadata log of length-prefixed record
sets, each closed by a trailing checksum, held in a two-block pair
distinguished by a monotonically increasing commit counter; a record set
counts as committed only if it is completely programmed and its trailing
checksum validates.  Cells of a block are `Option Nat`: `none` is an
erased (never-programmed or erased-again) cell. -/

/-- Modelled from the spec: the checksum over a record set's bytes
("a commit record ... containing a checksum over all records since the
last valid commit"); the concrete function stands in for the pluggable
32-bit integrity function. -/
def chk (body : List Nat) : Nat := body.sum % 256

/-- Modelled from the spec: encoding of a list of tagged, length-prefixed
records ("tagged, length-prefixed entr[ies] within a metadata block"). -/
def encodeRecs (rs : List (List Nat)) : List Nat :=
  rs.flatMap (fun r => r.length :: r)

/-- Modelled from the spec: one atomic commit as programmed into the log:
the record bytes, length-prefixed, closed by the trailing checksum byte
written last. -/
def encodeCommit (rs : List (List Nat)) : List Nat :=
  (encodeRecs rs).length :: (encodeRecs rs ++ [chk (encodeRecs rs)])

/-- Modelled from the spec: the recovery scan of one metadata block's
log: record sets are read front to back and "a record set is considered
valid only if its trailing checksum validates"; the scan stops at the
first incomplete (erased cell or missing bytes) or checksum-invalid
commit.  Returns the bodies of the valid commits. -/
def parseCommits : List (Option Nat) → List (List Nat)
  | [] => []
  | none :: _ => []
  | some n :: rest =>
      if (rest.take (n + 1)).length = n + 1 ∧
          (rest.take (n + 1)).all Option.isSome = true then
        if ((rest.take (n + 1)).filterMap id).drop n
            = [chk (((rest.take (n + 1)).filterMap id).take n)] then
          ((rest.take (n + 1)).filterMap id).take n
            :: parseCommits (rest.drop (n + 1))
        else []
      else []
  termination_by l => l.length
  decreasing_by simp; omega

theorem filterMap_id_map_some (l : List Nat) : (l.map some).filterMap id = l := by
  induction l with
  | nil => rfl
  | cons x xs ih => simp [ih]

theorem all_isSome_map_some (l : List Nat) :
    (l.map some).all Option.isSome = true := by
  simp [List.all_eq_true]

end LittleFS2

namespace LittleFS2

theorem parseCommits_wellformed (rs : List (List Nat)) (t : List (Option Nat)) :
    parseCommits ((encodeCommit rs).map some ++ t)
      = encodeRecs rs :: parseCommits t := by
  have hx : ((encodeRecs rs ++ [chk (encodeRecs rs)]).map some).length
      = (encodeRecs rs).length + 1 := by simp
  have hchunk : (((encodeRecs rs ++ [chk (encodeRecs rs)]).map some) ++ t).take
        ((encodeRecs rs).length + 1)
      = (encodeRecs rs ++ [chk (encodeRecs rs)]).map some := by
    rw [← hx, List.take_left]
  have hdropt : (((encodeRecs rs ++ [chk (encodeRecs rs)]).map some) ++ t).drop
        ((encodeRecs rs).length + 1) = t := by
    rw [← hx, List.drop_left]
  have hbytes : ((encodeRecs rs ++ [chk (encodeRecs rs)]).map some).filterMap id
      = encodeRecs rs ++ [chk (encodeRecs rs)] := filterMap_id_map_some _
  have htake : (encodeRecs rs ++ [chk (encodeRecs rs)]).take (encodeRecs rs).length
      = encodeRecs rs := List.take_left _ _
  have hdrop2 : (encodeRecs rs ++ [chk (encodeRecs rs)]).drop (encodeRecs rs).length
      = [chk (encodeRecs rs)] := List.drop_left _ _
  show parseCommits (some (encodeRecs rs).length ::
      (((encodeRecs rs ++ [chk (encodeRecs rs)]).map some) ++ t))
    = encodeRecs rs :: parseCommits t
  rw [parseCommits]
  rw [hchunk, hdropt, hbytes, htake, hdrop2]
  rw [if_pos ⟨hx, all_isSome_map_some _⟩, if_pos rfl]

end LittleFS2

namespace LittleFS2

theorem parseCommits_truncated (rs : List (List Nat)) (k : Nat)
    (hk : k < (encodeCommit rs).length) :
    parseCommits (((encodeCommit rs).take k).map some) = [] := by
  cases k with
  | zero => simp [parseCommits]
  | succ m =>
      have hxlen : (encodeRecs rs ++ [chk (encodeRecs rs)]).length
          = (encodeRecs rs).length + 1 := by simp
      have hm : m < (encodeRecs rs).length + 1 := by
        have hc : (encodeCommit rs).length
            = (encodeRecs rs ++ [chk (encodeRecs rs)]).length + 1 := by
          simp [encodeCommit]
        omega
      show parseCommits (some (encodeRecs rs).length ::
          (((encodeRecs rs ++ [chk (encodeRecs rs)]).take m).map some)) = []
      rw [parseCommits]
      apply if_neg
      intro hcond
      obtain ⟨h1, -⟩ := hcond
      rw [List.length_take, List.length_map, List.length_take] at h1
      omega

end LittleFS2

namespace LittleFS2

/-- Modelled from the spec: the programmed image of a sequence of
successfully committed record sets in one metadata block's log. -/
def encodeLog (cs : List (List (List Nat))) : List (Option Nat) :=
  (cs.flatMap encodeCommit).map some

theorem parseCommits_encodeLog (cs : List (List (List Nat))) (t : List (Option Nat)) :
    parseCommits (encodeLog cs ++ t) = cs.map encodeRecs ++ parseCommits t := by
  induction cs with
  | nil => simp [encodeLog]
  | cons c cs' ih =>
      have hsplit : encodeLog (c :: cs') ++ t
          = (encodeCommit c).map some ++ (encodeLog cs' ++ t) := by
        simp [encodeLog]
      rw [hsplit, parseCommits_wellformed, ih]
      simp

/-- Modelled from the spec: one block of a metadata pair: its first cell
holds the monotonically increasing commit counter (revision), the rest
is the commit log. -/
def blockContent (g : Nat) (cs : List (List (List Nat))) : List (Option Nat) :=
  some g :: encodeLog cs

/-- Modelled from the spec: recovery view of one block: its commit
counter and the bodies of its valid commits; a block with no valid
commit (or an erased counter cell) is invalid. -/
def parseBlock (b : List (Option Nat)) : Option (Nat × List (List Nat)) :=
  match b with
  | some g :: rest =>
      if parseCommits rest = [] then none else some (g, parseCommits rest)
  | _ => none

/-- Modelled from the spec: re-mounting reads both blocks of the pair and
adopts the valid block with the higher commit counter ("at most one of
the pair holds the valid, most-recently-committed generation,
distinguished by a monotonically increasing commit counter and validated
by checksum"); `none` when neither block is valid (Corrupt). -/
def mountPair (a b : List (Option Nat)) : Option (List (List Nat)) :=
  match parseBlock a, parseBlock b with
  | some (ga, sa), some (gb, sb) => if ga < gb then some sb else some sa
  | some (_, sa), none => some sa
  | none, some (_, sb) => some sb
  | none, none => none

/-- Modelled from the spec: programming a new commit onto the active
block, interrupted by power loss after `k` bytes of the commit were
programmed (`k` = full length: the program completed). -/
def appendInterrupted (a : List (Option Nat)) (rs : List (List Nat)) (k : Nat) :
    List (Option Nat) :=
  a ++ ((encodeCommit rs).take k).map some

/-- Modelled from the spec: erasing the spare block of the pair (the
first step of compaction), interrupted after `j` cells were erased;
erase proceeds from the start of the block. -/
def eraseInterrupted (b : List (Option Nat)) (j : Nat) : List (Option Nat) :=
  List.replicate (min j b.length) none ++ b.drop j

/-- Modelled from the spec: programming the compacted state (commit
counter `g`, then one commit holding the live records `rs`) onto the
fully erased spare block, interrupted after `k` bytes. -/
def compactInterrupted (g : Nat) (rs : List (List Nat)) (k : Nat) :
    List (Option Nat) :=
  ((g :: encodeCommit rs).take k).map some

end LittleFS2

namespace LittleFS2

theorem parseBlock_cons (g : Nat) (rest : List (Option Nat)) :
    parseBlock (some g :: rest)
      = if parseCommits rest = [] then none else some (g, parseCommits rest) := rfl

theorem parseBlock_erased_head (rest : List (Option Nat)) :
    parseBlock (none :: rest) = none := rfl

theorem parseBlock_nil : parseBlock [] = none := rfl

theorem mountPair_active (a b : List (Option Nat)) (ga : Nat) (sa : List (List Nat))
    (ha : parseBlock a = some (ga, sa))
    (hb : parseBlock b = none ∨
      ∃ gb sb, parseBlock b = some (gb, sb) ∧ gb < ga) :
    mountPair a b = some sa := by
  unfold mountPair
  rcases hb with hb | ⟨gb, sb, hb, hlt⟩
  · rw [ha, hb]
  · rw [ha, hb]
    exact if_neg (by omega)

theorem mountPair_newer (a b : List (Option Nat)) (ga gb : Nat)
    (sa sb : List (List Nat))
    (ha : parseBlock a = some (ga, sa)) (hb : parseBlock b = some (gb, sb))
    (h : ga < gb) : mountPair a b = some sb := by
  unfold mountPair
  rw [ha, hb]
  exact if_pos h

theorem parseBlock_blockContent (g : Nat) (cs : List (List (List Nat)))
    (h : cs ≠ []) :
    parseBlock (blockContent g cs) = some (g, cs.map encodeRecs) := by
  have hp : parseCommits (encodeLog cs) = cs.map encodeRecs := by
    have h0 := parseCommits_encodeLog cs []
    simpa [parseCommits] using h0
  have hne : cs.map encodeRecs ≠ [] := by
    intro hEq
    exact h (List.map_eq_nil_iff.mp hEq)
  show parseBlock (some g :: encodeLog cs) = some (g, cs.map encodeRecs)
  rw [parseBlock_cons, hp, if_neg hne]

end LittleFS2

namespace LittleFS2

/-- C1 (spec-modelled commit protocol): for a well-formed metadata pair
(active block with counter `g` and committed record sets `cs`, spare
block invalid or of an older generation), an interruption at any byte
offset of a commit program, of the compaction erase, or of the
compaction program leaves re-mounting with either the state of the last
successful commit before the write or the fully-committed post-write
state -- never a partially-applied mix. -/
theorem power_loss_atomicity (g : Nat) (cs : List (List (List Nat)))
    (b : List (Option Nat)) (rs : List (List Nat))
    (hcs : cs ≠ [])
    (hsp : parseBlock b = none ∨
      ∃ gb sb, parseBlock b = some (gb, sb) ∧ gb < g) :
    (∀ k, k ≤ (encodeCommit rs).length →
      mountPair (appendInterrupted (blockContent g cs) rs k) b
          = some (cs.map encodeRecs) ∨
      mountPair (appendInterrupted (blockContent g cs) rs k) b
          = some (cs.map encodeRecs ++ [encodeRecs rs])) ∧
    (∀ j, mountPair (blockContent g cs) (eraseInterrupted b j)
          = some (cs.map encodeRecs)) ∧
    (∀ k, k ≤ (encodeCommit rs).length + 1 →
      mountPair (blockContent g cs) (compactInterrupted (g + 1) rs k)
          = some (cs.map encodeRecs) ∨
      mountPair (blockContent g cs) (compactInterrupted (g + 1) rs k)
          = some [encodeRecs rs]) := by
  have hpre : cs.map encodeRecs ≠ [] := by
    intro hEq
    exact hcs (List.map_eq_nil_iff.mp hEq)
  have hactive : parseBlock (blockContent g cs) = some (g, cs.map encodeRecs) :=
    parseBlock_blockContent g cs hcs
  refine ⟨?_, ?_, ?_⟩
  · -- interrupted commit program on the active block
    intro k hk
    have hshape : appendInterrupted (blockContent g cs) rs k
        = some g :: (encodeLog cs ++ ((encodeCommit rs).take k).map some) := rfl
    rcases Nat.lt_or_ge k (encodeCommit rs).length with hlt | hge
    · left
      have hX : parseCommits (((encodeCommit rs).take k).map some) = [] :=
        parseCommits_truncated rs k hlt
      have hparse : parseCommits (encodeLog cs ++ ((encodeCommit rs).take k).map some)
          = cs.map encodeRecs := by
        rw [parseCommits_encodeLog, hX, List.append_nil]
      apply mountPair_active _ _ g _ _ hsp
      rw [hshape, parseBlock_cons, hparse, if_neg hpre]
    · right
      have hkeq : k = (encodeCommit rs).length := by omega
      have hfull : ((encodeCommit rs).take k).map some = (encodeCommit rs).map some := by
        rw [hkeq, List.take_length]
      have hX : parseCommits (((encodeCommit rs).take k).map some) = [encodeRecs rs] := by
        rw [hfull]
        have h1 := parseCommits_wellformed rs []
        simpa [parseCommits] using h1
      have hparse : parseCommits (encodeLog cs ++ ((encodeCommit rs).take k).map some)
          = cs.map encodeRecs ++ [encodeRecs rs] := by
        rw [parseCommits_encodeLog, hX]
      apply mountPair_active _ _ g _ _ hsp
      rw [hshape, parseBlock_cons, hparse, if_neg (by simp)]
  · -- interrupted erase of the spare block
    intro j
    apply mountPair_active _ _ g _ hactive
    cases j with
    | zero =>
        have h0 : eraseInterrupted b 0 = b := by
          simp [eraseInterrupted]
        rw [h0]
        exact hsp
    | succ m =>
        left
        cases b with
        | nil =>
            have h0 : eraseInterrupted [] (m + 1) = [] := by
              simp [eraseInterrupted]
            rw [h0, parseBlock_nil]
        | cons x xs =>
            have hshape : eraseInterrupted (x :: xs) (m + 1)
                = none :: (List.replicate (min m xs.length) none ++ xs.drop m) := by
              simp [eraseInterrupted, Nat.succ_min_succ, List.replicate_succ]
            rw [hshape, parseBlock_erased_head]
  · -- interrupted compaction program on the erased spare block
    intro k hk
    cases k with
    | zero =>
        left
        apply mountPair_active _ _ g _ hactive
        left
        have h0 : compactInterrupted (g + 1) rs 0 = [] := rfl
        rw [h0, parseBlock_nil]
    | succ m =>
        have hshape : compactInterrupted (g + 1) rs (m + 1)
            = some (g + 1) :: ((encodeCommit rs).take m).map some := rfl
        rcases Nat.lt_or_ge m (encodeCommit rs).length with hlt | hge
        · left
          apply mountPair_active _ _ g _ hactive
          left
          rw [hshape, parseBlock_cons, parseCommits_truncated rs m hlt, if_pos rfl]
        · right
          have hmeq : m = (encodeCommit rs).length := by omega
          have hfull : ((encodeCommit rs).take m).map some
              = (encodeCommit rs).map some := by
            rw [hmeq, List.take_length]
          have hX : parseCommits (((encodeCommit rs).take m).map some)
              = [encodeRecs rs] := by
            rw [hfull]
            have h1 := parseCommits_wellformed rs []
            simpa [parseCommits] using h1
          apply mountPair_newer _ _ g (g + 1) (cs.map encodeRecs) _ hactive ?_
            (Nat.lt_succ_self g)
          rw [hshape, parseBlock_cons, hX, if_neg (by simp)]

end LittleFS2

namespace LittleFS2

/-- Witness for `power_loss_atomicity`: active block with counter 1
holding one committed record [7], spare block fully erased; a commit of
record [5] interrupted after 3 of its 4 bytes, an erase interrupted
after 2 cells, and a completed compaction program each re-mount to the
pre-write or post-write state. -/
theorem power_loss_atomicity_witness :
    (mountPair (appendInterrupted (blockContent 1 [[[7]]]) [[5]] 3) []
        = some ([[[7]]].map encodeRecs) ∨
     mountPair (appendInterrupted (blockContent 1 [[[7]]]) [[5]] 3) []
        = some ([[[7]]].map encodeRecs ++ [encodeRecs [[5]]])) ∧
    mountPair (blockContent 1 [[[7]]]) (eraseInterrupted [] 2)
        = some ([[[7]]].map encodeRecs) ∧
    (mountPair (blockContent 1 [[[7]]]) (compactInterrupted 2 [[5]] 5)
        = some ([[[7]]].map encodeRecs) ∨
     mountPair (blockContent 1 [[[7]]]) (compactInterrupted 2 [[5]] 5)
        = some [encodeRecs [[5]]]) :=
  have h := power_loss_atomicity 1 [[[7]]] [] [[5]] (by decide)
    (Or.inl parseBlock_nil)
  ⟨h.1 3 (by decide), h.2.1 2, h.2.2 5 (by decide)⟩

end LittleFS2
